import Mathlib

/-!
Verification of the `patter` batch-construction pipeline.

Shallow embedding of the code in `src/patter/data/dataset.py`
(`audio_seq_collate_fn`, `BucketingSampler`, `AudioDataset`) and
`src/patter/trainer.py` (`split_targets`).  Feature tensors are modelled as
integer-valued matrices given by their two sizes and an entry function;
PyTorch int tensors become lists; Python exceptions become an explicit
error type threaded through `Except`.
-/

/-- A feature matrix for one audio sample, as handed to the collate function:
`size(0) = featureDim` rows (spectrogram bins), `size(1) = frameCount` columns
(time frames).  `entry f t` is the value at row `f`, column `t`. -/
structure FeatureSeq where
  featureDim : ℕ
  frameCount : ℕ
  entry : ℕ → ℕ → ℤ

/-- One element of the collate input list: the `(feature tensor, transcript)` pair
produced by `AudioDataset.__getitem__`.  Label values are the integer entries of
the transcript list. -/
structure Sample where
  feat : FeatureSeq
  labels : List ℤ

instance : Inhabited FeatureSeq := ⟨⟨0, 0, fun _ _ => 0⟩⟩

instance : Inhabited Sample := ⟨⟨default, []⟩⟩

/-- The sort key of `audio_seq_collate_fn`: `x[0].size(1)`, the frame count. -/
def sampleKey (s : Sample) : ℕ := s.feat.frameCount

/-- `batch.sort(key=lambda x: -x[0].size(1))` sorts ascending in `-frame_count`,
i.e. descending in `frame_count`; Python's `list.sort` is stable.  `a` may be
placed before `b` exactly when `frame_count(b) ≤ frame_count(a)`. -/
def sampleGe (a b : Sample) : Prop := sampleKey b ≤ sampleKey a

instance : DecidableRel sampleGe := fun _ _ => Nat.decLe _ _

instance : IsTotal Sample sampleGe := ⟨fun a b => Nat.le_total (sampleKey b) (sampleKey a)⟩

instance : IsTrans Sample sampleGe := ⟨fun _ _ _ h1 h2 => Nat.le_trans h2 h1⟩

/-- The in-place `batch.sort(key=lambda x: -x[0].size(1))`.  A stable sort over a
total preorder has a unique result, so the stable insertion sort coincides with
Python's Timsort on this key. -/
def sortSamplesDesc (batch : List Sample) : List Sample :=
  List.insertionSort sampleGe batch

/-- Failure outcomes of the embedded code.  `indexError` models Python's
`IndexError` (out-of-range list subscript); `runtimeError` models the error
torch raises when `copy_` gets an incompatibly shaped source; `attributeError`
models Python's `AttributeError`; `emptyBatch` is the error name the spec's
taxonomy designates for the `N == 0` case (the code is shown below never to
produce it). -/
inductive PyError where
  | indexError
  | runtimeError
  | attributeError
  | emptyBatch
deriving DecidableEq, Repr

/-- The zero-initialised batch tensor `inputs` of shape
`(n, 1, featureDim, maxFrames)` together with its entries: `entry i c f t` is
`inputs[i][c][f][t]`, totalised with `0` outside the tensor's extent (matching
the zero initialisation). -/
structure PaddedTensor where
  n : ℕ
  featureDim : ℕ
  maxFrames : ℕ
  entry : ℕ → ℕ → ℕ → ℕ → ℤ

/-- The tuple returned by `audio_seq_collate_fn`:
`(inputs, targets, input_lengths, target_sizes)`. -/
structure CollateOutput where
  inputs : PaddedTensor
  targets : List ℤ
  input_lengths : List ℕ
  target_sizes : List ℕ

/-- The body of `audio_seq_collate_fn` after the in-place sort, applied to the
(already sorted) list.  On the empty list, `batch[0]` raises `IndexError`.
Otherwise `inputs = torch.zeros(N, 1, batch[0][0].size(0), batch[0][0].size(1))`
is filled per sample by `inputs[i][0].narrow(1, 0, len_i).copy_(sample[0])`,
which succeeds when every sample has the first sample's `featureDim` (we do not
model torch's degenerate broadcasting edge cases, which no claim exercises);
`input_lengths[i] = sample[0].size(1)`, `target_sizes[i] = len(sample[1])`, and
`targets` is the concatenation of all label lists in sorted order. -/
def collateSorted : List Sample → Except PyError CollateOutput
  | [] => Except.error PyError.indexError
  | s0 :: rest =>
    if (s0 :: rest).all (fun s => s.feat.featureDim == s0.feat.featureDim) then
      Except.ok
        { inputs :=
            { n := (s0 :: rest).length
              featureDim := s0.feat.featureDim
              maxFrames := s0.feat.frameCount
              entry := fun i c f t =>
                match (s0 :: rest)[i]? with
                | some s =>
                  if c = 0 ∧ f < s0.feat.featureDim ∧ t < s.feat.frameCount then
                    s.feat.entry f t
                  else 0
                | none => 0 }
          targets := ((s0 :: rest).map Sample.labels).flatten
          input_lengths := (s0 :: rest).map sampleKey
          target_sizes := (s0 :: rest).map (fun s => s.labels.length) }
    else Except.error PyError.runtimeError

/-- `audio_seq_collate_fn(batch)`.  The first component is the state of the
caller's list after the call (the function sorts it in place); the second is
the returned tuple, or the raised error. -/
def audio_seq_collate_fn (batch : List Sample) :
    List Sample × Except PyError CollateOutput :=
  (sortSamplesDesc batch, collateSorted (sortSamplesDesc batch))

/-- The slicing loop of `split_targets` (`src/patter/trainer.py`), with the
running `offset` explicit: each size takes `targets[offset:offset+size]`. -/
def splitTargetsGo (targets : List ℤ) (offset : ℕ) : List ℕ → List (List ℤ)
  | [] => []
  | size :: rest =>
    ((targets.drop offset).take size) :: splitTargetsGo targets (offset + size) rest

/-- `split_targets(targets, target_sizes)` from `src/patter/trainer.py`. -/
def split_targets (targets : List ℤ) (target_sizes : List ℕ) : List (List ℤ) :=
  splitTargetsGo targets 0 target_sizes

/-! ### Sort lemmas: permutation, order, stability -/

theorem sortSamplesDesc_perm (batch : List Sample) :
    (sortSamplesDesc batch).Perm batch :=
  List.perm_insertionSort sampleGe batch

theorem sortSamplesDesc_length (batch : List Sample) :
    (sortSamplesDesc batch).length = batch.length :=
  (sortSamplesDesc_perm batch).length_eq

theorem sortSamplesDesc_pairwise (batch : List Sample) :
    (sortSamplesDesc batch).Pairwise sampleGe :=
  List.sorted_insertionSort sampleGe batch

/-- Inserting an element whose key is `k` prepends it to the `key = k` part:
every element `orderedInsert` walks past has key strictly above `k`. -/
theorem orderedInsert_filter_key_eq (x : Sample) (k : ℕ) (hx : sampleKey x = k) :
    ∀ l : List Sample,
      (List.orderedInsert sampleGe x l).filter (fun s => sampleKey s == k) =
        x :: l.filter (fun s => sampleKey s == k)
  | [] => by simp [hx]
  | y :: ys => by
    rw [List.orderedInsert]
    by_cases h : sampleGe x y
    · rw [if_pos h, List.filter_cons, List.filter_cons]
      simp [hx]
    · have hy : ¬(sampleKey y = k) := by
        simp only [sampleGe, not_le] at h
        omega
      rw [if_neg h, List.filter_cons, List.filter_cons,
        orderedInsert_filter_key_eq x k hx ys]
      simp [hy]

/-- Inserting an element whose key is not `k` leaves the `key = k` part alone. -/
theorem orderedInsert_filter_key_ne (x : Sample) (k : ℕ) (hx : sampleKey x ≠ k) :
    ∀ l : List Sample,
      (List.orderedInsert sampleGe x l).filter (fun s => sampleKey s == k) =
        l.filter (fun s => sampleKey s == k)
  | [] => by simp [hx]
  | y :: ys => by
    rw [List.orderedInsert]
    by_cases h : sampleGe x y
    · rw [if_pos h, List.filter_cons, List.filter_cons]
      simp [hx]
    · rw [if_neg h, List.filter_cons, List.filter_cons,
        orderedInsert_filter_key_ne x k hx ys]

/-- Stability of the sort: the subsequence of samples with any fixed frame
count is unchanged. -/
theorem sortSamplesDesc_filter_key (batch : List Sample) (k : ℕ) :
    (sortSamplesDesc batch).filter (fun s => sampleKey s == k) =
      batch.filter (fun s => sampleKey s == k) := by
  induction batch with
  | nil => rfl
  | cons x xs ih =>
    show (List.orderedInsert sampleGe x (sortSamplesDesc xs)).filter _ = _
    by_cases hx : sampleKey x = k
    · rw [orderedInsert_filter_key_eq x k hx, ih, List.filter_cons]
      simp [hx]
    · rw [orderedInsert_filter_key_ne x k hx, ih, List.filter_cons]
      simp [hx]

/-! ### Components of a successful collate call -/

theorem collateSorted_cons_ok (s0 : Sample) (rest : List Sample) (out : CollateOutput)
    (h : collateSorted (s0 :: rest) = Except.ok out) :
    out.inputs.n = (s0 :: rest).length ∧
    out.inputs.featureDim = s0.feat.featureDim ∧
    out.inputs.maxFrames = s0.feat.frameCount ∧
    out.input_lengths = (s0 :: rest).map sampleKey ∧
    out.targets = ((s0 :: rest).map Sample.labels).flatten ∧
    out.target_sizes = (s0 :: rest).map (fun s => s.labels.length) ∧
    out.inputs.entry = (fun i c f t =>
      match (s0 :: rest)[i]? with
      | some s =>
        if c = 0 ∧ f < s0.feat.featureDim ∧ t < s.feat.frameCount then
          s.feat.entry f t
        else 0
      | none => 0) := by
  rw [collateSorted] at h
  split at h
  · cases h
    exact ⟨rfl, rfl, rfl, rfl, rfl, rfl, rfl⟩
  · cases h

theorem collate_ok_components (batch : List Sample) (out : CollateOutput)
    (h : (audio_seq_collate_fn batch).2 = Except.ok out) :
    out.input_lengths = (sortSamplesDesc batch).map sampleKey ∧
    out.targets = ((sortSamplesDesc batch).map Sample.labels).flatten ∧
    out.target_sizes = (sortSamplesDesc batch).map (fun s => s.labels.length) := by
  have h' : collateSorted (sortSamplesDesc batch) = Except.ok out := h
  cases hs : sortSamplesDesc batch with
  | nil => rw [hs] at h'; cases h'
  | cons s0 rest =>
    rw [hs] at h'
    obtain ⟨-, -, -, h4, h5, h6, -⟩ := collateSorted_cons_ok s0 rest out h'
    exact ⟨h4, h5, h6⟩

/-! ### C1: descending, stable ordering of the returned batch -/

/-- C1: whenever `audio_seq_collate_fn` returns a batch, the returned
`input_lengths` list is non-increasing, the sorted sample list is a
permutation of the input list, and samples with equal frame count keep their
original relative order (the subsequence at each fixed frame count is
unchanged by the sort). -/
theorem audio_seq_collate_fn_sorted_stable (batch : List Sample) (out : CollateOutput)
    (h : (audio_seq_collate_fn batch).2 = Except.ok out) :
    List.Sorted (· ≥ ·) out.input_lengths ∧
    ((audio_seq_collate_fn batch).1).Perm batch ∧
    (∀ k : ℕ, ((audio_seq_collate_fn batch).1).filter (fun s => sampleKey s == k) =
        batch.filter (fun s => sampleKey s == k)) := by
  refine ⟨?_, sortSamplesDesc_perm batch, fun k => sortSamplesDesc_filter_key batch k⟩
  obtain ⟨h1, -, -⟩ := collate_ok_components batch out h
  rw [h1, List.Sorted, List.pairwise_map]
  exact (sortSamplesDesc_pairwise batch).imp (fun hab => hab)

/-! Concrete batch used by the witnesses. -/

def egFeatA : FeatureSeq := { featureDim := 2, frameCount := 1, entry := fun f t => (f : ℤ) - t }

def egFeatB : FeatureSeq := { featureDim := 2, frameCount := 3, entry := fun f t => (f : ℤ) + 2 * t }

def egS1 : Sample := { feat := egFeatA, labels := [7] }

def egS2 : Sample := { feat := egFeatB, labels := [4, 5] }

def egBatch : List Sample := [egS1, egS2]

def egOut : CollateOutput :=
  (audio_seq_collate_fn egBatch).2.toOption.getD
    { inputs := ⟨0, 0, 0, fun _ _ _ _ => 0⟩
      targets := []
      input_lengths := []
      target_sizes := [] }

/-- Witness for C1 at the concrete two-sample batch `egBatch`. -/
theorem audio_seq_collate_fn_sorted_stable_witness :
    (audio_seq_collate_fn egBatch).2 = Except.ok egOut ∧
      (List.Sorted (· ≥ ·) egOut.input_lengths ∧
       ((audio_seq_collate_fn egBatch).1).Perm egBatch ∧
       (∀ k : ℕ, ((audio_seq_collate_fn egBatch).1).filter (fun s => sampleKey s == k) =
           egBatch.filter (fun s => sampleKey s == k))) :=
  ⟨rfl, audio_seq_collate_fn_sorted_stable egBatch egOut rfl⟩

/-! ### C3/C4: flattened targets and their per-sample sizes -/

theorem splitTargetsGo_flatten (ls : List (List ℤ)) :
    ∀ pre : List ℤ,
      splitTargetsGo (pre ++ ls.flatten) pre.length (ls.map (fun t => t.length)) = ls := by
  induction ls with
  | nil => intro pre; rfl
  | cons hd tl ih =>
    intro pre
    rw [List.map_cons, splitTargetsGo]
    congr 1
    · rw [List.flatten_cons, List.drop_left, List.take_left]
    · have h := ih (pre ++ hd)
      rw [List.append_assoc, List.length_append] at h
      rw [List.flatten_cons]
      exact h

/-- C3: splitting the flattened label buffer at the returned `target_sizes`
reconstructs exactly the per-sample label sequences, in the sorted order of
the batch. -/
theorem split_targets_roundtrip (batch : List Sample) (out : CollateOutput)
    (h : (audio_seq_collate_fn batch).2 = Except.ok out) :
    split_targets out.targets out.target_sizes =
      ((audio_seq_collate_fn batch).1).map Sample.labels := by
  obtain ⟨-, h2, h3⟩ := collate_ok_components batch out h
  have h4 : out.target_sizes =
      ((sortSamplesDesc batch).map Sample.labels).map (fun t => t.length) := by
    rw [h3, List.map_map]; rfl
  rw [split_targets, h2, h4]
  have h5 := splitTargetsGo_flatten ((sortSamplesDesc batch).map Sample.labels) []
  simpa using h5

/-- Witness for C3 at the concrete batch `egBatch`. -/
theorem split_targets_roundtrip_witness :
    (audio_seq_collate_fn egBatch).2 = Except.ok egOut ∧
      split_targets egOut.targets egOut.target_sizes =
        ((audio_seq_collate_fn egBatch).1).map Sample.labels :=
  ⟨rfl, split_targets_roundtrip egBatch egOut rfl⟩

/-- C4: the entries of `target_sizes` sum to the length of the flattened
`targets` buffer. -/
theorem collate_target_sizes_sum (batch : List Sample) (out : CollateOutput)
    (h : (audio_seq_collate_fn batch).2 = Except.ok out) :
    out.target_sizes.sum = out.targets.length := by
  obtain ⟨-, h2, h3⟩ := collate_ok_components batch out h
  rw [h2, h3, List.length_flatten, List.map_map]
  rfl

/-- Witness for C4 at the concrete batch `egBatch`. -/
theorem collate_target_sizes_sum_witness :
    (audio_seq_collate_fn egBatch).2 = Except.ok egOut ∧
      egOut.target_sizes.sum = egOut.targets.length :=
  ⟨rfl, collate_target_sizes_sum egBatch egOut rfl⟩

/-! ### C5: shape and contents of the padded tensor -/

/-- C5: the padded tensor has shape `(N, 1, featureDim, maxFrames)` with
`featureDim` and `maxFrames` taken from the first sorted sample; sample `i`'s
frames fill the first `frame_count_i` columns of channel 0, every column at
index `≥ frame_count_i` is zero, and `input_lengths[i]` is `frame_count_i`. -/
theorem collate_padding (batch : List Sample) (s0 : Sample) (rest : List Sample)
    (out : CollateOutput)
    (h : audio_seq_collate_fn batch = (s0 :: rest, Except.ok out)) :
    out.inputs.n = batch.length ∧
    out.inputs.featureDim = s0.feat.featureDim ∧
    out.inputs.maxFrames = s0.feat.frameCount ∧
    out.input_lengths = (s0 :: rest).map sampleKey ∧
    (∀ i s, (s0 :: rest)[i]? = some s →
      (∀ f t, f < out.inputs.featureDim → t < s.feat.frameCount →
          out.inputs.entry i 0 f t = s.feat.entry f t) ∧
      (∀ f t, s.feat.frameCount ≤ t → out.inputs.entry i 0 f t = 0)) := by
  have h1 : sortSamplesDesc batch = s0 :: rest := congrArg Prod.fst h
  have h2 : collateSorted (sortSamplesDesc batch) = Except.ok out := congrArg Prod.snd h
  rw [h1] at h2
  obtain ⟨e1, e2, e3, e4, -, -, e7⟩ := collateSorted_cons_ok s0 rest out h2
  refine ⟨?_, e2, e3, e4, ?_⟩
  · rw [e1, ← h1, sortSamplesDesc_length]
  · intro i s hi
    constructor
    · intro f t hf ht
      rw [e2] at hf
      rw [e7]
      simp [hi, hf, ht]
    · intro f t ht
      have ht' : ¬t < s.feat.frameCount := by omega
      rw [e7]
      simp [hi, ht']

/-- Witness for C5 at the concrete batch `egBatch` (sorted order `[egS2, egS1]`). -/
theorem collate_padding_witness :
    audio_seq_collate_fn egBatch = (egS2 :: [egS1], Except.ok egOut) ∧
      (egOut.inputs.n = egBatch.length ∧
       egOut.inputs.featureDim = egS2.feat.featureDim ∧
       egOut.inputs.maxFrames = egS2.feat.frameCount ∧
       egOut.input_lengths = (egS2 :: [egS1]).map sampleKey ∧
       (∀ i s, (egS2 :: [egS1])[i]? = some s →
         (∀ f t, f < egOut.inputs.featureDim → t < s.feat.frameCount →
             egOut.inputs.entry i 0 f t = s.feat.entry f t) ∧
         (∀ f t, s.feat.frameCount ≤ t → egOut.inputs.entry i 0 f t = 0))) :=
  ⟨rfl, collate_padding egBatch egS2 [egS1] egOut rfl⟩

/-! ### C6: the call mutates the caller's list (in-place sort) -/

/-- A batch given to the collate function in ascending length order. -/
def egUnsorted : List Sample := [egS1, egS2]

/-- C6 counterexample: `audio_seq_collate_fn` does have a side effect on the
caller's list.  On `[egS1, egS2]` (frame counts `[1, 3]`), the in-place sort
reorders the caller's list, so after the call it differs from the original. -/
theorem collate_mutates_callers_list :
    (audio_seq_collate_fn egUnsorted).1 ≠ egUnsorted := by
  intro h
  have h2 := congrArg (List.map sampleKey) h
  have h3 : (audio_seq_collate_fn egUnsorted).1 = [egS2, egS1] := rfl
  rw [h3] at h2
  simp [egUnsorted, egS1, egS2, egFeatA, egFeatB, sampleKey] at h2

/-- C6 amended: the only side effect of `audio_seq_collate_fn` is sorting the
caller's list in place.  After the call the list holds exactly the original
samples (a permutation — membership and multiplicity unchanged), arranged in
non-increasing frame-count order, with ties kept in their original order. -/
theorem collate_side_effect_is_sort (batch : List Sample) :
    ((audio_seq_collate_fn batch).1).Perm batch ∧
    ((audio_seq_collate_fn batch).1).Pairwise sampleGe ∧
    (∀ k : ℕ, ((audio_seq_collate_fn batch).1).filter (fun s => sampleKey s == k) =
        batch.filter (fun s => sampleKey s == k)) :=
  ⟨sortSamplesDesc_perm batch, sortSamplesDesc_pairwise batch,
    fun k => sortSamplesDesc_filter_key batch k⟩

/-! ### C7: behaviour on the empty batch -/

/-- C7 counterexample: on the empty list the function does not produce the
spec's designated early `EmptyBatch` rejection. -/
theorem collate_empty_not_emptyBatch :
    (audio_seq_collate_fn []).2 ≠ Except.error PyError.emptyBatch := by
  intro h
  have h2 : (audio_seq_collate_fn []).2 = Except.error PyError.indexError := rfl
  rw [h2] at h
  cases h

/-- C7 amended: on the empty list (`N == 0`) the function does fail, but with
an uncaught `IndexError` from evaluating `batch[0][0]` on the empty list while
allocating the tensor — there is no explicit early empty-batch check. -/
theorem collate_empty_indexError :
    (audio_seq_collate_fn []).2 = Except.error PyError.indexError := rfl

/-! ### BucketingSampler: bucket construction -/

/-- `range(0, stop, step)` for positive `step`: the `⌈stop/step⌉` multiples of
`step` below `stop`, in order. -/
def pyRange (stop step : ℕ) : List ℕ :=
  (List.range ((stop + step - 1) / step)).map (· * step)

/-- The bins computed in `BucketingSampler.__init__`:
`ids = list(range(0, len(data_source)))` and
`self.bins = [ids[i:i + batch_size] for i in range(0, len(ids), batch_size)]`
(`ids[i:i+bs]` is drop `i` then take `bs`). -/
def BucketingSampler.initBins (n batch_size : ℕ) : List (List ℕ) :=
  (pyRange n batch_size).map (fun i => ((List.range n).drop i).take batch_size)

/-- The same slicing applied to an arbitrary list, for the inductive proofs. -/
def bucketSlices (bs : ℕ) (l : List α) : List (List α) :=
  (pyRange l.length bs).map (fun i => (l.drop i).take bs)

theorem BucketingSampler.initBins_eq (n bs : ℕ) :
    BucketingSampler.initBins n bs = bucketSlices bs (List.range n) := by
  simp [BucketingSampler.initBins, bucketSlices]

theorem bucketSlices_nil (bs : ℕ) (hbs : 1 ≤ bs) :
    bucketSlices bs ([] : List α) = [] := by
  have h : (bs - 1) / bs = 0 := Nat.div_eq_of_lt (by omega)
  simp [bucketSlices, pyRange, h]

theorem ceilDiv_succ (bs m : ℕ) (hbs : 1 ≤ bs) (hm : 1 ≤ m) :
    (m + bs - 1) / bs = (m - bs + bs - 1) / bs + 1 := by
  rcases Nat.le_total m bs with h | h
  · have h1 : m - bs = 0 := by omega
    have h2 : (m + bs - 1) / bs = 1 := by
      apply Nat.div_eq_of_lt_le
      · omega
      · omega
    have h3 : (0 + bs - 1) / bs = 0 := Nat.div_eq_of_lt (by omega)
    rw [h1, h2, h3]
  · have h1 : m + bs - 1 = (m - bs + bs - 1) + bs := by omega
    rw [h1, Nat.add_div_right _ (by omega)]

/-- Peeling one bucket off the front of the slicing. -/
theorem bucketSlices_cons (bs : ℕ) (hbs : 1 ≤ bs) (l : List α) (hl : l ≠ []) :
    bucketSlices bs l = l.take bs :: bucketSlices bs (l.drop bs) := by
  have hm : 1 ≤ l.length := List.length_pos.mpr hl
  unfold bucketSlices pyRange
  rw [List.length_drop, ceilDiv_succ bs l.length hbs hm, List.range_succ_eq_map,
    List.map_cons, List.map_cons]
  simp only [List.map_map, Nat.zero_mul, List.drop_zero]
  congr 1
  apply List.map_congr_left
  intro k _
  simp only [Function.comp]
  rw [List.drop_drop]
  congr 2
  rw [Nat.succ_mul, Nat.add_comm]

theorem bucketSlices_flatten (bs : ℕ) (hbs : 1 ≤ bs) :
    ∀ (fuel : ℕ) (l : List α), l.length ≤ fuel → (bucketSlices bs l).flatten = l := by
  intro fuel
  induction fuel with
  | zero =>
    intro l hl
    have h : l = [] := List.eq_nil_of_length_eq_zero (by omega)
    subst h
    rw [bucketSlices_nil bs hbs]
    rfl
  | succ fuel ih =>
    intro l hl
    rcases eq_or_ne l [] with rfl | hne
    · rw [bucketSlices_nil bs hbs]
      rfl
    · have hdrop : (l.drop bs).length ≤ fuel := by
        rw [List.length_drop]
        have := List.length_pos.mpr hne
        omega
      rw [bucketSlices_cons bs hbs l hne, List.flatten_cons, ih (l.drop bs) hdrop,
        List.take_append_drop]

theorem bucketSlices_dropLast_length (bs : ℕ) (hbs : 1 ≤ bs) :
    ∀ (fuel : ℕ) (l : List α), l.length ≤ fuel →
      ∀ b ∈ (bucketSlices bs l).dropLast, b.length = bs := by
  intro fuel
  induction fuel with
  | zero =>
    intro l hl b hb
    have h : l = [] := List.eq_nil_of_length_eq_zero (by omega)
    subst h
    rw [bucketSlices_nil bs hbs] at hb
    cases hb
  | succ fuel ih =>
    intro l hl b hb
    rcases eq_or_ne l [] with rfl | hne
    · rw [bucketSlices_nil bs hbs] at hb
      cases hb
    · have hpos := List.length_pos.mpr hne
      have hdrop : (l.drop bs).length ≤ fuel := by
        rw [List.length_drop]
        omega
      rw [bucketSlices_cons bs hbs l hne] at hb
      cases hrest : bucketSlices bs (l.drop bs) with
      | nil =>
        rw [hrest] at hb
        cases hb
      | cons c cs =>
        rw [hrest, List.dropLast_cons₂] at hb
        rcases List.mem_cons.mp hb with rfl | hb2
        · have hdne : l.drop bs ≠ [] := by
            intro hd
            rw [hd, bucketSlices_nil bs hbs] at hrest
            cases hrest
          have hlt : bs < l.length := by
            have := List.length_pos.mpr hdne
            rw [List.length_drop] at this
            omega
          rw [List.length_take]
          omega
        · rw [← hrest] at hb2
          exact ih (l.drop bs) hdrop b hb2

/-! ### BucketingSampler: iteration and shuffling -/

def lcg (g : ℕ) : ℕ := (1664525 * g + 1013904223) % 4294967296

def npShuffleAux [DecidableEq α] : ℕ → ℕ → List α → List α × ℕ
  | 0, g, l => (l, g)
  | fuel + 1, g, l =>
    match l[g % l.length]? with
    | none => (l, g)
    | some x =>
      let p := npShuffleAux fuel (lcg g) (l.erase x)
      (x :: p.1, p.2)

/-- Deterministic model of `np.random.shuffle`: a Fisher–Yates style shuffle
driven by the global generator state `g` (numpy's global Mersenne Twister,
modelled by a linear congruential generator — the claims depend only on the
shuffle being a permutation computed deterministically from, and advancing,
the single shared global state).  Returns the shuffled list and the advanced
global state. -/
def npShuffle [DecidableEq α] (g : ℕ) (l : List α) : List α × ℕ :=
  npShuffleAux l.length g l

theorem npShuffleAux_perm [DecidableEq α] :
    ∀ (fuel g : ℕ) (l : List α), (npShuffleAux fuel g l).1.Perm l := by
  intro fuel
  induction fuel with
  | zero => intro g l; exact List.Perm.refl _
  | succ fuel ih =>
    intro g l
    rw [npShuffleAux]
    split
    · exact List.Perm.refl _
    · next x hx =>
        have hmem : x ∈ l := List.getElem?_mem hx
        exact ((ih (lcg g) (l.erase x)).cons x).trans (List.perm_cons_erase hmem).symm

theorem npShuffle_perm [DecidableEq α] (g : ℕ) (l : List α) :
    (npShuffle g l).1.Perm l :=
  npShuffleAux_perm l.length g l

/-- One `BucketingSampler.__iter__` pass: for each bin in order,
`np.random.shuffle(ids)` reorders the bin's contents in place (mutating
`self.bins`) and the bin is yielded.  Returns the yielded buckets (= the new
state of `self.bins`) and the advanced global RNG state. -/
def iterPass (g : ℕ) : List (List ℕ) → List (List ℕ) × ℕ
  | [] => ([], g)
  | b :: rest =>
    let p := npShuffle g b
    let q := iterPass p.2 rest
    (p.1 :: q.1, q.2)

theorem iterPass_forall2 (bins : List (List ℕ)) :
    ∀ g : ℕ, List.Forall₂ (fun b b' => List.Perm b b') (iterPass g bins).1 bins := by
  induction bins with
  | nil => intro g; exact List.Forall₂.nil
  | cons b rest ih =>
    intro g
    exact List.Forall₂.cons (npShuffle_perm g b) (ih (npShuffle g b).2)

/-- The observable operations on a constructed sampler: `__iter__` passes
(`iterEpoch`) and explicit `shuffle()` calls (`shuffleCall`, which is
`np.random.shuffle(self.bins)`, reordering the bins themselves in place). -/
inductive SamplerOp where
  | iterEpoch
  | shuffleCall
deriving DecidableEq, Repr

/-- Applying a sequence of sampler operations, threading both the sampler's
`self.bins` state and the single global RNG state. -/
def applyOps : List SamplerOp → ℕ → List (List ℕ) → List (List ℕ) × ℕ
  | [], g, bins => (bins, g)
  | SamplerOp.iterEpoch :: ops, g, bins =>
    let p := iterPass g bins
    applyOps ops p.2 p.1
  | SamplerOp.shuffleCall :: ops, g, bins =>
    let p := npShuffle g bins
    applyOps ops p.2 p.1

theorem forall2_perm_map_multiset {l1 l2 : List (List ℕ)}
    (h : List.Forall₂ (fun b b' => List.Perm b b') l1 l2) :
    l1.map (fun b : List ℕ => (b : Multiset ℕ)) = l2.map (fun b : List ℕ => (b : Multiset ℕ)) := by
  induction h with
  | nil => rfl
  | cons hbb _ ih =>
    simp only [List.map_cons]
    rw [ih, Multiset.coe_eq_coe.mpr hbb]

theorem forall2_perm_flatten {l1 l2 : List (List ℕ)}
    (h : List.Forall₂ (fun b b' => List.Perm b b') l1 l2) :
    l1.flatten.Perm l2.flatten := by
  induction h with
  | nil => exact List.Perm.refl _
  | cons hbb _ ih => exact hbb.append ih

/-- Every sequence of iteration passes and `shuffle()` calls only permutes
buckets among themselves and elements within their buckets: the list of
bucket contents (as multisets) is preserved up to bucket order. -/
theorem applyOps_multiset_perm :
    ∀ (ops : List SamplerOp) (g : ℕ) (bins : List (List ℕ)),
      ((applyOps ops g bins).1.map (fun b : List ℕ => (b : Multiset ℕ))).Perm
        (bins.map (fun b : List ℕ => (b : Multiset ℕ))) := by
  intro ops
  induction ops with
  | nil => intro g bins; exact List.Perm.refl _
  | cons op rest ih =>
    intro g bins
    cases op with
    | iterEpoch =>
      have h1 := forall2_perm_map_multiset (iterPass_forall2 bins g)
      exact (ih (iterPass g bins).2 (iterPass g bins).1).trans (h1 ▸ List.Perm.refl _)
    | shuffleCall =>
      have h1 := List.Perm.map (fun b : List ℕ => (b : Multiset ℕ)) (npShuffle_perm g bins)
      exact (ih (npShuffle g bins).2 (npShuffle g bins).1).trans h1

theorem applyOps_flatten_perm :
    ∀ (ops : List SamplerOp) (g : ℕ) (bins : List (List ℕ)),
      ((applyOps ops g bins).1.flatten).Perm bins.flatten := by
  intro ops
  induction ops with
  | nil => intro g bins; exact List.Perm.refl _
  | cons op rest ih =>
    intro g bins
    cases op with
    | iterEpoch =>
      exact (ih (iterPass g bins).2 (iterPass g bins).1).trans
        (forall2_perm_flatten (iterPass_forall2 bins g))
    | shuffleCall =>
      exact (ih (npShuffle g bins).2 (npShuffle g bins).1).trans
        (npShuffle_perm g bins).flatten

/-! ### C2: the buckets always partition the index range -/

/-- The partition invariants of C2: the freshly constructed bins concatenate
to exactly `[0, n)` in order (so every index occurs exactly once), bucket
sizes sum to `n`, every bucket except possibly the last has exactly
`batch_size` elements, and any sequence of `__iter__` passes and `shuffle()`
calls preserves bucket membership (up to bucket order) and the partition. -/
def BucketPartitionSpec (n bs : ℕ) : Prop :=
  (BucketingSampler.initBins n bs).flatten = List.range n ∧
  ((BucketingSampler.initBins n bs).map List.length).sum = n ∧
  (∀ i : ℕ,
    (BucketingSampler.initBins n bs).flatten.count i = if i < n then 1 else 0) ∧
  (∀ b ∈ (BucketingSampler.initBins n bs).dropLast, b.length = bs) ∧
  (∀ (ops : List SamplerOp) (g : ℕ),
    (((applyOps ops g (BucketingSampler.initBins n bs)).1).map
        (fun b : List ℕ => (b : Multiset ℕ))).Perm
      ((BucketingSampler.initBins n bs).map (fun b : List ℕ => (b : Multiset ℕ))) ∧
    ((applyOps ops g (BucketingSampler.initBins n bs)).1.flatten).Perm
      (List.range n))

/-- C2: for every dataset size `n` and batch size `≥ 1`, the constructed
buckets partition `[0, n)` exactly, and iteration/shuffling never changes
bucket membership, only intra-bucket and inter-bucket order. -/
theorem bucketingSampler_partition (n bs : ℕ) (hbs : 1 ≤ bs) :
    BucketPartitionSpec n bs := by
  have hflat : (BucketingSampler.initBins n bs).flatten = List.range n := by
    rw [BucketingSampler.initBins_eq]
    exact bucketSlices_flatten bs hbs n (List.range n) (by simp)
  refine ⟨hflat, ?_, ?_, ?_, ?_⟩
  · have h := congrArg List.length hflat
    rw [List.length_flatten, List.length_range] at h
    exact h
  · intro i
    rw [hflat]
    by_cases hi : i < n
    · rw [if_pos hi]
      exact List.count_eq_one_of_mem (List.nodup_range n) (List.mem_range.mpr hi)
    · rw [if_neg hi]
      exact List.count_eq_zero_of_not_mem (fun hmem => hi (List.mem_range.mp hmem))
  · rw [BucketingSampler.initBins_eq]
    exact bucketSlices_dropLast_length bs hbs n (List.range n) (by simp)
  · intro ops g
    refine ⟨applyOps_multiset_perm ops g _, ?_⟩
    exact (applyOps_flatten_perm ops g _).trans (hflat ▸ List.Perm.refl _)

/-- Witness for C2 at `n = 5`, `batch_size = 2`. -/
theorem bucketingSampler_partition_witness :
    1 ≤ 2 ∧ BucketPartitionSpec 5 2 :=
  ⟨by decide, bucketingSampler_partition 5 2 (by decide)⟩

/-! ### C8: randomness comes from the shared global state -/

/-- C8 counterexample: seed the global RNG once (state `12345`) and construct
two equal samplers (`n = 6`, `batch_size = 3`).  Iterating the first and then
the second — the second pass starting from the global state the first pass
left behind, exactly as two `np.random.shuffle` users in one process do —
produces different bucket sequences: the random source is the shared global
state, not an injectable per-instance generator. -/
theorem bucketing_iter_not_injectable :
    (iterPass 12345 (BucketingSampler.initBins 6 3)).1 ≠
      (iterPass (iterPass 12345 (BucketingSampler.initBins 6 3)).2
        (BucketingSampler.initBins 6 3)).1 := by
  decide

/-- C8 amended: iteration is deterministic in the explicit global RNG state —
two samplers constructed with equal parameters and iterated from equal global
states (e.g. after re-seeding numpy's global generator with the same seed
immediately before each pass) produce identical bucket sequences. -/
theorem bucketing_iter_deterministic (n bs g : ℕ) (s1 s2 : List (List ℕ))
    (h1 : s1 = BucketingSampler.initBins n bs)
    (h2 : s2 = BucketingSampler.initBins n bs) :
    (iterPass g s1).1 = (iterPass g s2).1 := by
  subst h1
  subst h2
  rfl

/-- Witness for the amended C8 at `n = 4`, `batch_size = 2`, state `7`. -/
theorem bucketing_iter_deterministic_witness :
    [[0, 1], [2, 3]] = BucketingSampler.initBins 4 2 ∧
      (iterPass 7 [[0, 1], [2, 3]]).1 = (iterPass 7 [[0, 1], [2, 3]]).1 :=
  ⟨by decide, bucketing_iter_deterministic 4 2 7 _ _ (by decide) (by decide)⟩

/-! ### AudioDataset: transcript parsing (C9) -/

/-- `self.labels_map = dict([(labels[i], i) for i in range(len(labels))])`,
kept as the association list of `(character, index)` pairs in insertion
order. -/
def labels_map (labels : List Char) : List (Char × ℕ) :=
  labels.enum.map (fun p => (p.2, p.1))

/-- Python dict `get` for a dict built by inserting the pairs in order: the
latest binding for `c` wins; `none` when `c` is unbound. -/
def dictGet (d : List (Char × ℕ)) (c : Char) : Option ℕ :=
  d.foldl (fun acc p => if p.1 = c then some p.2 else acc) none

/-- Python truthiness of an `Optional[int]`: `None` and `0` are falsy.
`filter(None, xs)` keeps exactly the truthy elements of `xs`. -/
def pyTruthy : Option ℕ → Bool
  | none => false
  | some n => n != 0

/-- `AudioDataset.parse_transcript` after the file read: `transcript` is the
file's character list with newlines removed, and the code computes
`list(filter(None, [self.labels_map.get(x) for x in list(transcript)]))`. -/
def parse_transcript (labels : List Char) (transcript : List Char) : List ℕ :=
  ((transcript.map (dictGet (labels_map labels))).filter pyTruthy).filterMap id

theorem filter_pyTruthy_filterMap (os : List (Option ℕ)) :
    (os.filter pyTruthy).filterMap id = (os.filterMap id).filter (fun n => n != 0) := by
  induction os with
  | nil => rfl
  | cons o os ih =>
    cases o with
    | none => simpa [pyTruthy] using ih
    | some n =>
      by_cases hn : n = 0
      · subst hn
        simpa [pyTruthy] using ih
      · simp [pyTruthy, hn, List.filter_cons, ih]

/-- C9: `parse_transcript` drops not only unmapped characters but every
occurrence of the character mapped to label index 0 (conventionally the
blank): the result is the looked-up index sequence with all zeros removed,
and in particular index `0` never appears in any parsed transcript. -/
theorem parse_transcript_drops_blank (labels transcript : List Char) :
    0 ∉ parse_transcript labels transcript ∧
    parse_transcript labels transcript =
      (transcript.filterMap (dictGet (labels_map labels))).filter (fun n => n != 0) := by
  have h : parse_transcript labels transcript =
      (transcript.filterMap (dictGet (labels_map labels))).filter (fun n => n != 0) := by
    rw [parse_transcript, filter_pyTruthy_filterMap]
    simp [List.filterMap_map]
  refine ⟨?_, h⟩
  rw [h]
  intro hmem
  have h2 := List.of_mem_filter hmem
  simp at h2

/-! ### AudioDataset: never-assigned attributes (C10) -/

/-- The object returned by `Manifest(manifest_filepath, ...)`
(`patter/data/manifest.py`, not part of the analysed sources); only the two
attributes `AudioDataset.__init__` reads for its print statement are
modelled.  The claim below holds for every manifest value. -/
structure Manifest where
  duration : ℚ
  filtered_duration : ℚ

/-- The instance state of a constructed `AudioDataset`: one slot per
attribute, `none` when the attribute was never assigned (reading such a slot
raises `AttributeError`). -/
structure AudioDataset where
  manifest : Manifest
  labels_map : List (Char × ℕ)
  featurizer : Option Unit
  size : Option ℕ
  ids : Option (List String)

/-- `AudioDataset.__init__`: assigns exactly `self.manifest`,
`self.labels_map` and `self.featurizer`; no constructor path assigns
`self.size` or `self.ids`. -/
def audioDataset_init (m : Manifest) (labels : List Char)
    (featurizer : Option Unit) : AudioDataset :=
  { manifest := m
    labels_map := labels_map labels
    featurizer := featurizer
    size := none
    ids := none }

/-- `AudioDataset.__len__`: `return self.size`, an attribute read that raises
`AttributeError` when `size` was never assigned. -/
def AudioDataset.pyLen (d : AudioDataset) : Except PyError ℕ :=
  match d.size with
  | some n => Except.ok n
  | none => Except.error PyError.attributeError

/-- The first step of `AudioDataset.__getitem__`, `sample = self.ids[index]`:
the read of `self.ids` raises `AttributeError` when it was never assigned. -/
def AudioDataset.getIds (d : AudioDataset) : Except PyError (List String) :=
  match d.ids with
  | some v => Except.ok v
  | none => Except.error PyError.attributeError

/-- `BucketingSampler.__init__(data_source, batch_size)` over an
`AudioDataset`: evaluates `len(data_source)` and, when that succeeds, builds
the bins from it. -/
def bucketingSampler_init (d : AudioDataset) (batch_size : ℕ) :
    Except PyError (List (List ℕ)) :=
  match d.pyLen with
  | Except.error e => Except.error e
  | Except.ok n => Except.ok (BucketingSampler.initBins n batch_size)

/-- C10: every constructed `AudioDataset` raises `AttributeError` from
`__len__` (no constructor path assigns `self.size`); `__getitem__`'s read of
the never-assigned `self.ids` fails the same way; consequently constructing a
`BucketingSampler` over such a dataset, which calls `len(data_source)`,
always fails. -/
theorem audioDataset_len_always_fails (m : Manifest) (labels : List Char)
    (featurizer : Option Unit) (batch_size : ℕ) :
    (audioDataset_init m labels featurizer).pyLen =
        Except.error PyError.attributeError ∧
    (audioDataset_init m labels featurizer).getIds =
        Except.error PyError.attributeError ∧
    bucketingSampler_init (audioDataset_init m labels featurizer) batch_size =
      Except.error PyError.attributeError :=
  ⟨rfl, rfl, rfl⟩
